import Mathlib

/-!
Verification of the Data Insights dashboard (src/app.py) against its
natural-language specification.  The Python source is shallowly embedded:
pure helpers become Lean functions, the pandas dataframe becomes an explicit
`Dataset` of named columns of cells, and the chart-rendering / query logic
becomes total Lean functions returning `Except`-style results where the
Python code can raise.
-/

namespace DIV

/-! ## Column-name deduplication (app.py lines 11-21)

Python source:
```
def make_columns_unique(columns):
    seen = {}
    new_cols = []
    for col in columns:
        if col in seen:
            seen[col] += 1
            new_cols.append(f"{col}.{seen[col]}")
        else:
            seen[col] = 0
            new_cols.append(col)
    return new_cols
```
The dict `seen` is embedded as an association list with front-shadowing
insertion; lookup returns the most recently written binding, exactly like a
Python dict. -/

def getSeen (seen : List (String × Nat)) (col : String) : Option Nat :=
  (seen.find? (fun p => p.1 == col)).map Prod.snd

def make_columns_unique_go (seen : List (String × Nat)) : List String → List String
  | [] => []
  | col :: rest =>
    match getSeen seen col with
    | some n =>
        (col ++ "." ++ toString (n + 1)) :: make_columns_unique_go ((col, n + 1) :: seen) rest
    | none =>
        col :: make_columns_unique_go ((col, 0) :: seen) rest

def make_columns_unique (columns : List String) : List String :=
  make_columns_unique_go [] columns

/-- The name the spec says the i-th occurrence of a column gets: with `k`
prior occurrences, the first occurrence (`k = 0`) is unchanged and the k-th
repeat is renamed `name.k`. -/
def mangle (k : Nat) (name : String) : String :=
  if k = 0 then name else name ++ "." ++ toString k

example : make_columns_unique ["a", "a", "a"] = ["a", "a.1", "a.2"] := by decide

example : make_columns_unique ["a", "a.1", "a"] = ["a", "a.1", "a.1"] := by decide

theorem getSeen_cons (a : String) (n : Nat) (s : List (String × Nat)) (c : String) :
    getSeen ((a, n) :: s) c = if a = c then some n else getSeen s c := by
  by_cases h : a = c <;> simp [getSeen, List.find?_cons, h]

theorem make_columns_unique_go_spec (cols : List String) :
    ∀ (seen : List (String × Nat)) (pref : List String),
      (∀ c, getSeen seen c = if pref.count c = 0 then none else some (pref.count c - 1)) →
      ∀ (i : Nat) (h : i < cols.length),
        (make_columns_unique_go seen cols)[i]? =
          some (mangle ((pref ++ cols.take i).count (cols.get ⟨i, h⟩)) (cols.get ⟨i, h⟩)) := by
  induction cols with
  | nil => intro seen pref _ i h; simp at h
  | cons col rest ih =>
    intro seen pref inv i h
    match i with
    | 0 =>
      have hc := inv col
      cases hs : getSeen seen col with
      | none =>
        rw [hs] at hc
        have hcount : pref.count col = 0 := by
          by_cases h0 : pref.count col = 0
          · exact h0
          · simp [h0] at hc
        simp [make_columns_unique_go, hs, mangle, hcount]
      | some n =>
        rw [hs] at hc
        have hne : ¬ pref.count col = 0 := by
          intro h0; simp [h0] at hc
        have hn : n = pref.count col - 1 := by
          by_cases h0 : pref.count col = 0
          · exact absurd h0 hne
          · simp [h0] at hc; omega
        have hsum : n + 1 = pref.count col := by omega
        simp [make_columns_unique_go, hs, mangle, hne, hsum]
    | Nat.succ j =>
      have hj : j < rest.length := by simpa using h
      cases hs : getSeen seen col with
      | none =>
        have hcount : pref.count col = 0 := by
          have hc := inv col
          rw [hs] at hc
          by_cases h0 : pref.count col = 0
          · exact h0
          · simp [h0] at hc
        have inv2 : ∀ c, getSeen ((col, 0) :: seen) c =
            if (pref ++ [col]).count c = 0 then none
            else some ((pref ++ [col]).count c - 1) := by
          intro c
          rw [getSeen_cons]
          by_cases hcc : col = c
          · subst hcc
            have hcnt : (pref ++ [col]).count col = pref.count col + 1 := by
              simp [List.count_append]
            rw [if_pos rfl, hcnt, hcount]
            simp
          · have hzero : List.count c [col] = 0 := by
              rw [List.count_eq_zero]
              simpa using fun hq => hcc hq.symm
            rw [if_neg hcc, inv c, List.count_append, hzero, Nat.add_zero]
        have step := ih ((col, 0) :: seen) (pref ++ [col]) inv2 j hj
        simpa [make_columns_unique_go, hs, List.append_assoc] using step
      | some n =>
        have hc := inv col
        rw [hs] at hc
        have hne : ¬ pref.count col = 0 := by intro h0; simp [h0] at hc
        have hn : n = pref.count col - 1 := by
          by_cases h0 : pref.count col = 0
          · exact absurd h0 hne
          · simp [h0] at hc; omega
        have inv2 : ∀ c, getSeen ((col, n + 1) :: seen) c =
            if (pref ++ [col]).count c = 0 then none
            else some ((pref ++ [col]).count c - 1) := by
          intro c
          rw [getSeen_cons]
          by_cases hcc : col = c
          · subst hcc
            have hcnt : (pref ++ [col]).count col = pref.count col + 1 := by
              simp [List.count_append]
            have hne2 : ¬ pref.count col + 1 = 0 := by omega
            rw [if_pos rfl, hcnt, if_neg hne2]
            exact congrArg some (by omega)
          · have hzero : List.count c [col] = 0 := by
              rw [List.count_eq_zero]
              simpa using fun hq => hcc hq.symm
            rw [if_neg hcc, inv c, List.count_append, hzero, Nat.add_zero]
        have step := ih ((col, n + 1) :: seen) (pref ++ [col]) inv2 j hj
        simpa [make_columns_unique_go, hs, List.append_assoc] using step

/-- C2: `make_columns_unique` keeps the first occurrence of each name
unchanged and renames the n-th repeat (n ≥ 1, counted in first-seen order)
to `name.n`; in particular `["a","a","a"]` becomes `["a","a.1","a.2"]`. -/
theorem make_columns_unique_spec :
    (∀ (cols : List String) (i : Nat) (h : i < cols.length),
        (make_columns_unique cols)[i]? =
          some (mangle ((cols.take i).count (cols.get ⟨i, h⟩)) (cols.get ⟨i, h⟩)))
    ∧ make_columns_unique ["a", "a", "a"] = ["a", "a.1", "a.2"] := by
  constructor
  · intro cols i h
    have base : ∀ c : String, getSeen [] c =
        if ([] : List String).count c = 0 then none
        else some (([] : List String).count c - 1) := by
      intro c; simp [getSeen]
    simpa using make_columns_unique_go_spec cols [] [] base i h
  · decide

theorem make_columns_unique_spec_witness :
    (make_columns_unique ["b", "a", "b", "b"])[3]? = some "b.2" := by
  rw [make_columns_unique_spec.1 ["b", "a", "b", "b"] 3 (by decide)]
  decide

/-- C1 (code bug): the spec claims the output column names are always
pairwise distinct, but the renaming scheme can collide with a name already
present in the input: on `["a", "a.1", "a"]` the second `"a"` is renamed to
`"a.1"`, which duplicates the existing column `"a.1"`. -/
theorem make_columns_unique_collision :
    make_columns_unique ["a", "a.1", "a"] = ["a", "a.1", "a.1"]
    ∧ ¬ (make_columns_unique ["a", "a.1", "a"]).Nodup := by
  constructor
  · decide
  · decide

/-! ## Data model

A pandas dataframe cell is numeric, text, or missing (NaN); a `Dataset` is
the list of column names produced by ingestion together with the rows.
Numbers are embedded as rationals. -/

inductive Cell where
  | num (q : ℚ)
  | str (s : String)
  | null
deriving DecidableEq

structure Dataset where
  cols : List String
  rows : List (List Cell)
deriving DecidableEq

/-- Column extraction `df[name]`: position of the first column called
`name`, then that entry of every row (`KeyError`, i.e. `none`, when the
column does not exist). -/
def getCol (d : Dataset) (name : String) : Option (List Cell) :=
  (d.cols.findIdx? (fun c => c == name)).map
    (fun j => d.rows.map (fun r => r.getD j Cell.null))

def cellIsNull : Cell → Bool
  | Cell.null => true
  | _ => false

def cellToNum : Cell → Option ℚ
  | Cell.num q => some q
  | _ => none

/-- How the f-string renders a cell value in a message. -/
def cellToString : Cell → String
  | Cell.num q => toString q
  | Cell.str s => s
  | Cell.null => "nan"

/-! ### Orders used by the pandas primitives

Strings are compared lexicographically by code point, which is the order
Python and pandas use when sorting string keys.  The comparison is written
directly on the character lists so that it evaluates inside the kernel. -/

def strLtCore : List Char → List Char → Bool
  | [], [] => false
  | [], _ :: _ => true
  | _ :: _, [] => false
  | a :: as, b :: bs =>
    if a.toNat < b.toNat then true
    else if b.toNat < a.toNat then false
    else strLtCore as bs

def strLt (a b : String) : Prop := strLtCore a.data b.data = true

def strLe (a b : String) : Prop := strLtCore b.data a.data = false

theorem strLtCore_false_total : ∀ (as bs : List Char),
    strLtCore as bs = false ∨ strLtCore bs as = false := by
  intro as
  induction as with
  | nil => intro bs; cases bs <;> simp [strLtCore]
  | cons a as ih =>
    intro bs
    cases bs with
    | nil => simp [strLtCore]
    | cons b bs =>
      by_cases h1 : a.toNat < b.toNat
      · have h2 : ¬ b.toNat < a.toNat := by omega
        simp [strLtCore, h1, h2]
      · by_cases h2 : b.toNat < a.toNat
        · simp [strLtCore, h1, h2]
        · simpa [strLtCore, h1, h2] using ih bs

theorem strLtCore_false_trans : ∀ (as bs cs : List Char),
    strLtCore bs as = false → strLtCore cs bs = false → strLtCore cs as = false := by
  intro as
  induction as with
  | nil =>
    intro bs cs _ _
    cases cs <;> simp [strLtCore]
  | cons a as ih =>
    intro bs cs hba hcb
    cases bs with
    | nil => simp [strLtCore] at hba
    | cons b bs =>
      cases cs with
      | nil => simp [strLtCore] at hcb
      | cons c cs =>
        by_cases h1 : b.toNat < a.toNat
        · simp [strLtCore, h1] at hba
        · by_cases h2 : c.toNat < b.toNat
          · simp [strLtCore, h2] at hcb
          · have h3 : ¬ c.toNat < a.toNat := by omega
            by_cases h4 : a.toNat < c.toNat
            · simp [strLtCore, h3, h4]
            · have hba2 : strLtCore bs as = false := by
                have h5 : ¬ a.toNat < b.toNat := by omega
                simpa [strLtCore, h1, h5] using hba
              have hcb2 : strLtCore cs bs = false := by
                have h6 : ¬ b.toNat < c.toNat := by omega
                simpa [strLtCore, h2, h6] using hcb
              simpa [strLtCore, h3, h4] using ih bs cs hba2 hcb2

theorem strLtCore_eq_of_false : ∀ (as bs : List Char),
    strLtCore as bs = false → strLtCore bs as = false → as = bs := by
  intro as
  induction as with
  | nil =>
    intro bs h1 _
    cases bs with
    | nil => rfl
    | cons b bs => simp [strLtCore] at h1
  | cons a as ih =>
    intro bs h1 h2
    cases bs with
    | nil => simp [strLtCore] at h2
    | cons b bs =>
      by_cases hl : a.toNat < b.toNat
      · simp [strLtCore, hl] at h1
      · by_cases hg : b.toNat < a.toNat
        · simp [strLtCore, hg] at h2
        · have hev : a.toNat = b.toNat := by omega
          have hab : a = b := Char.ext (UInt32.ext hev)
          have h1b : strLtCore as bs = false := by
            simpa [strLtCore, hl, hg] using h1
          have h2b : strLtCore bs as = false := by
            simpa [strLtCore, hl, hg] using h2
          rw [hab, ih bs h1b h2b]

theorem string_ext {a b : String} (h : a.data = b.data) : a = b := by
  cases a; cases b; exact congrArg String.mk h

instance strLt.dec (a b : String) : Decidable (strLt a b) :=
  inferInstanceAs (Decidable (strLtCore a.data b.data = true))

instance strLe.dec (a b : String) : Decidable (strLe a b) :=
  inferInstanceAs (Decidable (strLtCore b.data a.data = false))

theorem strLe_total (a b : String) : strLe a b ∨ strLe b a :=
  (strLtCore_false_total b.data a.data).imp id id

theorem strLe_trans {a b c : String} (hab : strLe a b) (hbc : strLe b c) :
    strLe a c :=
  strLtCore_false_trans a.data b.data c.data hab hbc

theorem strLe_antisymm {a b : String} (hab : strLe a b) (hba : strLe b a) :
    a = b :=
  string_ext (strLtCore_eq_of_false a.data b.data hba hab)

theorem strLt_asymm {a b : String} (h : strLt a b) : strLe a b := by
  rcases strLtCore_false_total a.data b.data with h1 | h1
  · rw [strLt] at h; rw [h] at h1; cases h1
  · exact h1

theorem strLt_of_not_le {a b : String} (h : ¬ strLe a b) : strLt b a := by
  rw [strLe] at h
  rw [strLt]
  cases hx : strLtCore b.data a.data with
  | false => exact absurd hx h
  | true => rfl


/-- Ascending order on cells, as used for groupby keys: numbers by value,
strings lexicographically; a number sorts before a string and a null before
everything (group keys are never null, so the cross-type cases are
arbitrary tie-breaks of the embedding). -/
def cellLe : Cell → Cell → Prop
  | Cell.null, _ => True
  | Cell.num _, Cell.null => False
  | Cell.num a, Cell.num b => a ≤ b
  | Cell.num _, Cell.str _ => True
  | Cell.str _, Cell.null => False
  | Cell.str _, Cell.num _ => False
  | Cell.str a, Cell.str b => strLe a b

instance cellLe.decRel : DecidableRel cellLe := fun a b =>
  match a, b with
  | Cell.null, Cell.null => isTrue trivial
  | Cell.null, Cell.num _ => isTrue trivial
  | Cell.null, Cell.str _ => isTrue trivial
  | Cell.num _, Cell.null => isFalse (fun h => h)
  | Cell.num a, Cell.num b => inferInstanceAs (Decidable (a ≤ b))
  | Cell.num _, Cell.str _ => isTrue trivial
  | Cell.str _, Cell.null => isFalse (fun h => h)
  | Cell.str _, Cell.num _ => isFalse (fun h => h)
  | Cell.str a, Cell.str b => strLe.dec a b

instance cellLe.total : IsTotal Cell cellLe := by
  constructor
  intro a b
  cases a <;> cases b <;> simp only [cellLe] <;>
    first
    | exact Or.inl trivial
    | exact Or.inr trivial
    | exact le_total _ _
    | exact strLe_total _ _

instance cellLe.trans : IsTrans Cell cellLe := by
  constructor
  intro a b c hab hbc
  cases a <;> cases b <;> cases c <;> simp only [cellLe] at * <;>
    first
    | trivial
    | exact le_trans hab hbc
    | exact strLe_trans hab hbc

/-- Descending order on (value, count) pairs used by `value_counts`. -/
def countDesc (p q : Cell × Nat) : Prop := q.2 ≤ p.2

instance countDesc.decRel : DecidableRel countDesc := fun p q =>
  Nat.decLe q.2 p.2

instance countDesc.total : IsTotal (Cell × Nat) countDesc :=
  ⟨fun p q => (Nat.le_total q.2 p.2).imp id id⟩

instance countDesc.trans : IsTrans (Cell × Nat) countDesc :=
  ⟨fun _ _ _ hab hbc => le_trans hbc hab⟩

/-! ### value_counts and groupby aggregation -/

/-- `series.value_counts()`: drop nulls, count each distinct value, sort
counts descending. -/
def valueCounts (cells : List Cell) : List (Cell × Nat) :=
  let nn := cells.filter (fun c => !cellIsNull c)
  List.insertionSort countDesc (nn.dedup.map (fun v => (v, nn.count v)))

/-- Distinct non-null grouping keys in ascending order, as produced by
`df.groupby(x)` with default sorting. -/
def groupKeys (xs : List Cell) : List Cell :=
  List.insertionSort cellLe (xs.filter (fun c => !cellIsNull c)).dedup

/-- The value-column entries of the rows whose category cell equals `k`. -/
def groupVals (k : Cell) (xs ys : List Cell) : List Cell :=
  ((xs.zip ys).filter (fun p => p.1 == k)).map Prod.snd

inductive Agg where
  | Sum
  | Mean
  | Count
deriving DecidableEq

/-- One reduced group value: sum of the numeric entries, their arithmetic
mean (NaN, i.e. `none`, for a group with no numeric entry, like pandas),
or the count of non-null entries. -/
def aggValue : Agg → List Cell → Option ℚ
  | Agg.Sum, vs => some ((vs.filterMap cellToNum).sum)
  | Agg.Mean, vs =>
      let ns := vs.filterMap cellToNum
      if ns.isEmpty then none else some (ns.sum / (ns.length : ℚ))
  | Agg.Count, vs => some ((vs.countP (fun c => !cellIsNull c) : Nat) : ℚ)

/-- `df.groupby(x)[y].agg(...)`: one (key, value) pair per distinct non-null
category value, keys ascending. -/
def groupbyAgg (a : Agg) (xs ys : List Cell) : List (Cell × Option ℚ) :=
  (groupKeys xs).map (fun k => (k, aggValue a (groupVals k xs ys)))

/-- The category column of the aggregation test vector from the spec. -/
def exCat : List Cell := [Cell.str "A", Cell.str "A", Cell.str "B"]

/-- The value column of the aggregation test vector from the spec. -/
def exVal : List Cell := [Cell.num 10, Cell.num 20, Cell.num 30]

example : groupbyAgg Agg.Sum exCat exVal =
    [(Cell.str "A", some 30), (Cell.str "B", some 30)] := by with_unfolding_all rfl

example : groupbyAgg Agg.Mean exCat exVal =
    [(Cell.str "A", some 15), (Cell.str "B", some 30)] := by with_unfolding_all rfl

example : groupbyAgg Agg.Count exCat exVal =
    [(Cell.str "A", some 2), (Cell.str "B", some 1)] := by with_unfolding_all rfl

example : valueCounts exCat = [(Cell.str "A", 2), (Cell.str "B", 1)] := by decide

/-! ## Chart configuration and renderer (app.py lines 78-87 and 143-201) -/

inductive ChartType where
  | Bar
  | Line
  | Pie
  | Doughnut
deriving DecidableEq

structure ChartConfig where
  chart_type : ChartType
  x : String
  y : Option String
  use_agg : Bool
  agg : Option Agg
  top_n : Nat
  color_scheme : String
deriving DecidableEq

inductive FigKind where
  | bar
  | line
  | pie
deriving DecidableEq

/-- The observable content of one produced plotly figure: which constructor
was used, the two-column plot frame, the pie hole, line markers, the color
sequence, the title and the fixed height. -/
structure Figure where
  kind : FigKind
  frame : List (Cell × Option ℚ)
  xcol : String
  hole : Option ℚ
  markers : Bool
  colorSeq : String
  title : String
  height : Nat
deriving DecidableEq

/-- The qualitative palettes offered by the color-theme selector; the
`getattr` palette lookup fails on any other name. -/
def paletteNames : List String := ["Plotly", "Set1", "Set2", "Set3", "Dark2", "Pastel"]

def lookupPalette (s : String) : Option String :=
  if paletteNames.contains s then some s else none

/-- The aggregation dispatch of lines 156-161: the string comparison chain
is `if Sum / elif Mean / else count`, so anything other than Sum or Mean
falls into the count branch. -/
def effAgg : Option Agg → Agg
  | some Agg.Sum => Agg.Sum
  | some Agg.Mean => Agg.Mean
  | _ => Agg.Count

/-- The plot frame of the `value_counts` branches (lines 162-164 and 186-187). -/
def freqFrame (cells : List Cell) : List (Cell × Option ℚ) :=
  (valueCounts cells).map (fun p => (p.1, some ((p.2 : Nat) : ℚ)))

def isBarLine : ChartType → Bool
  | ChartType.Bar => true
  | ChartType.Line => true
  | _ => false

def mkBarLine (t : ChartType) (x : String) (frame : List (Cell × Option ℚ))
    (colors : String) (i : Nat) : Figure :=
  { kind := if t = ChartType.Bar then FigKind.bar else FigKind.line
    frame := frame
    xcol := x
    hole := none
    markers := if t = ChartType.Bar then false else true
    colorSeq := colors
    title := "Chart " ++ toString (i + 1)
    height := 500 }

def barLineFreq (d : Dataset) (i : Nat) (cfg : ChartConfig) (colors : String) :
    Except String Figure :=
  match getCol d cfg.x with
  | none => Except.error ("KeyError: " ++ cfg.x)
  | some xs => Except.ok (mkBarLine cfg.chart_type cfg.x (freqFrame xs) colors i)

/-- One iteration of the Generate All Charts loop (lines 146-201) for the
configuration at position `i`.  `Except.error` models an uncaught pandas or
plotly exception. -/
def renderChart (d : Dataset) (i : Nat) (cfg : ChartConfig) : Except String Figure :=
  match lookupPalette cfg.color_scheme with
  | none => Except.error ("AttributeError: " ++ cfg.color_scheme)
  | some colors =>
    if isBarLine cfg.chart_type then
      match cfg.use_agg, cfg.y with
      | true, some yn =>
        if yn = "" then barLineFreq d i cfg colors
        else
          match getCol d cfg.x with
          | none => Except.error ("KeyError: " ++ cfg.x)
          | some xs =>
            match getCol d yn with
            | none => Except.error ("KeyError: " ++ yn)
            | some ys =>
              Except.ok (mkBarLine cfg.chart_type cfg.x
                (groupbyAgg (effAgg cfg.agg) xs ys) colors i)
      | true, none => barLineFreq d i cfg colors
      | false, _ => barLineFreq d i cfg colors
    else
      match getCol d cfg.x with
      | none => Except.error ("KeyError: " ++ cfg.x)
      | some xs =>
        Except.ok
          { kind := FigKind.pie
            frame := freqFrame xs
            xcol := cfg.x
            hole := some (if cfg.chart_type = ChartType.Doughnut then (45 / 100 : ℚ) else 0)
            markers := false
            colorSeq := colors
            title := "Chart " ++ toString (i + 1)
            height := 500 }

/-! ### Structural facts about the grouped plot frame -/

theorem groupKeys_nodup (xs : List Cell) : (groupKeys xs).Nodup :=
  ((List.perm_insertionSort cellLe _).nodup_iff).mpr (List.nodup_dedup _)

theorem groupKeys_sorted (xs : List Cell) : List.Sorted cellLe (groupKeys xs) :=
  List.sorted_insertionSort cellLe _

theorem mem_groupKeys {xs : List Cell} {c : Cell} :
    c ∈ groupKeys xs ↔ (c ∈ xs ∧ cellIsNull c = false) := by
  simp [groupKeys, List.mem_dedup, List.mem_filter]

theorem groupbyAgg_map_fst (a : Agg) (xs ys : List Cell) :
    (groupbyAgg a xs ys).map Prod.fst = groupKeys xs := by
  unfold groupbyAgg
  rw [List.map_map]
  have hcomp : (Prod.fst ∘ fun k => (k, aggValue a (groupVals k xs ys))) = id := rfl
  rw [hcomp, List.map_id]

theorem mem_groupbyAgg {a : Agg} {xs ys : List Cell} {p : Cell × Option ℚ} :
    p ∈ groupbyAgg a xs ys ↔
      (p.1 ∈ groupKeys xs ∧ p.2 = aggValue a (groupVals p.1 xs ys)) := by
  constructor
  · intro hp
    rcases List.mem_map.mp hp with ⟨k, hk, he⟩
    cases p
    cases he
    exact ⟨hk, rfl⟩
  · intro h
    rcases p with ⟨c, v⟩
    rcases h with ⟨h1, h2⟩
    exact List.mem_map.mpr ⟨c, h1, by simp at h2; rw [h2]⟩

theorem getCol_length {d : Dataset} {name : String} {xs : List Cell}
    (h : getCol d name = some xs) : xs.length = d.rows.length := by
  rcases Option.map_eq_some'.mp h with ⟨j, _, rfl⟩
  simp

/-- C3: for a Bar or Line chart with aggregation enabled and a value column
set, the rendered plot frame is the groupby aggregation of the value column
over the category column: one pair per distinct (non-null) category value,
categories ascending and pairwise distinct, the value of each pair being
the sum, arithmetic mean, or count of non-null entries of the value column
over that category, per the selected aggregation; on the test vector
make = [A,A,B], price = [10,20,30] this yields Sum 30/30, Mean 15/30,
Count 2/1. -/
theorem barline_aggregation_spec :
    (∀ (d : Dataset) (i : Nat) (cfg : ChartConfig) (yn : String)
        (xs ys : List Cell) (colors : String),
        (cfg.chart_type = ChartType.Bar ∨ cfg.chart_type = ChartType.Line) →
        cfg.use_agg = true → cfg.y = some yn → yn ≠ "" →
        getCol d cfg.x = some xs → getCol d yn = some ys →
        lookupPalette cfg.color_scheme = some colors →
        renderChart d i cfg =
          Except.ok (mkBarLine cfg.chart_type cfg.x
            (groupbyAgg (effAgg cfg.agg) xs ys) colors i)
        ∧ ((groupbyAgg (effAgg cfg.agg) xs ys).map Prod.fst).Nodup
        ∧ List.Sorted cellLe ((groupbyAgg (effAgg cfg.agg) xs ys).map Prod.fst)
        ∧ (∀ c : Cell, c ∈ (groupbyAgg (effAgg cfg.agg) xs ys).map Prod.fst ↔
            (c ∈ xs ∧ cellIsNull c = false))
        ∧ (∀ p : Cell × Option ℚ, p ∈ groupbyAgg (effAgg cfg.agg) xs ys →
            p.2 = aggValue (effAgg cfg.agg) (groupVals p.1 xs ys)))
    ∧ groupbyAgg Agg.Sum exCat exVal = [(Cell.str "A", some 30), (Cell.str "B", some 30)]
    ∧ groupbyAgg Agg.Mean exCat exVal = [(Cell.str "A", some 15), (Cell.str "B", some 30)]
    ∧ groupbyAgg Agg.Count exCat exVal = [(Cell.str "A", some 2), (Cell.str "B", some 1)] := by
  refine ⟨?_, by with_unfolding_all rfl, by with_unfolding_all rfl, by with_unfolding_all rfl⟩
  intro d i cfg yn xs ys colors hct hagg hy hyne hx hyy hpal
  have hbl : isBarLine cfg.chart_type = true := by
    rcases hct with h | h <;> rw [h] <;> rfl
  refine ⟨?_, ?_, ?_, ?_, ?_⟩
  · rw [renderChart, hpal]
    simp only [hbl, if_true]
    rw [hagg, hy]
    simp only [if_neg hyne]
    rw [hx, hyy]
  · rw [groupbyAgg_map_fst]; exact groupKeys_nodup xs
  · rw [groupbyAgg_map_fst]; exact groupKeys_sorted xs
  · intro c; rw [groupbyAgg_map_fst]; exact mem_groupKeys
  · intro p hp; exact (mem_groupbyAgg.mp hp).2

/-- The uploaded car dataset used to instantiate the aggregation claims. -/
def dCar : Dataset :=
  { cols := ["make", "price"]
    rows := [[Cell.str "A", Cell.num 10], [Cell.str "A", Cell.num 20],
             [Cell.str "B", Cell.num 30]] }

def cfgSum : ChartConfig :=
  { chart_type := ChartType.Bar, x := "make", y := some "price"
    use_agg := true, agg := some Agg.Sum, top_n := 15, color_scheme := "Plotly" }

theorem barline_aggregation_spec_witness :
    renderChart dCar 0 cfgSum =
      Except.ok (mkBarLine ChartType.Bar "make"
        (groupbyAgg Agg.Sum exCat exVal) "Plotly" 0) :=
  (barline_aggregation_spec.1 dCar 0 cfgSum "price" exCat exVal "Plotly"
    (Or.inl rfl) rfl rfl (by decide) (by decide) (by decide) (by decide)).1

/-! ### The frequency fallback (lines 162-164) -/

theorem mem_valueCounts {xs : List Cell} {c : Cell} {n : Nat} :
    (c, n) ∈ valueCounts xs ↔
      (c ∈ xs ∧ cellIsNull c = false ∧ n = (xs.filter (fun c => !cellIsNull c)).count c) := by
  rw [valueCounts]
  rw [List.Perm.mem_iff (List.perm_insertionSort countDesc _)]
  constructor
  · intro hp
    rcases List.mem_map.mp hp with ⟨v, hv, he⟩
    cases he
    have := List.mem_filter.mp (List.mem_dedup.mp hv)
    exact ⟨this.1, by simpa using this.2, rfl⟩
  · intro ⟨h1, h2, h3⟩
    refine List.mem_map.mpr ⟨c, ?_, by rw [h3]⟩
    exact List.mem_dedup.mpr (List.mem_filter.mpr ⟨h1, by simp [h2]⟩)

theorem valueCounts_count {xs : List Cell} {c : Cell} {n : Nat}
    (h : (c, n) ∈ valueCounts xs) : n = xs.count c := by
  rcases mem_valueCounts.mp h with ⟨_, h2, h3⟩
  rw [h3, List.count_filter (by simp [h2])]

theorem valueCounts_sum (xs : List Cell) :
    ((valueCounts xs).map Prod.snd).sum = (xs.filter (fun c => !cellIsNull c)).length := by
  rw [valueCounts]
  have hperm := (List.perm_insertionSort countDesc
    ((xs.filter (fun c => !cellIsNull c)).dedup.map
      (fun v => (v, (xs.filter (fun c => !cellIsNull c)).count v)))).map Prod.snd
  rw [hperm.sum_eq, List.map_map]
  simpa [Function.comp] using
    List.sum_map_count_dedup_eq_length (xs.filter (fun c => !cellIsNull c))

/-- C4 counterexample: a category column consisting of one null cell.  The
frequency frame is empty (`value_counts` drops nulls), so the sum of the
counts is 0 while the dataset has one row, refuting the claim that the sum
of the frequency counts always equals the row count. -/
def dNull : Dataset := { cols := ["cat"], rows := [[Cell.null]] }

def cfgFreq : ChartConfig :=
  { chart_type := ChartType.Bar, x := "cat", y := none
    use_agg := false, agg := none, top_n := 15, color_scheme := "Plotly" }

theorem freq_fallback_rowcount_cex :
    renderChart dNull 0 cfgFreq =
      Except.ok (mkBarLine ChartType.Bar "cat" [] "Plotly" 0)
    ∧ freqFrame [Cell.null] = []
    ∧ ((valueCounts [Cell.null]).map Prod.snd).sum = 0
    ∧ dNull.rows.length = 1 := by
  exact ⟨by with_unfolding_all rfl, by with_unfolding_all rfl, by decide, rfl⟩

/-- C4 (amended): with aggregation disabled, the Bar/Line plot frame is the
frequency count of the category column: each distinct non-null category
value is paired with its number of occurrences, and the counts sum to the
number of non-null entries of the category column, which equals the row
count whenever the category column has no nulls (`value_counts` silently
drops null cells, so a null-bearing column makes the sum fall short of the
row count). -/
theorem freq_fallback_spec :
    ∀ (d : Dataset) (i : Nat) (cfg : ChartConfig) (xs : List Cell) (colors : String),
      (cfg.chart_type = ChartType.Bar ∨ cfg.chart_type = ChartType.Line) →
      cfg.use_agg = false →
      getCol d cfg.x = some xs →
      lookupPalette cfg.color_scheme = some colors →
      renderChart d i cfg =
        Except.ok (mkBarLine cfg.chart_type cfg.x (freqFrame xs) colors i)
      ∧ (∀ (c : Cell) (n : Nat), (c, n) ∈ valueCounts xs ↔
          (c ∈ xs ∧ cellIsNull c = false ∧
            n = (xs.filter (fun c => !cellIsNull c)).count c))
      ∧ (∀ (c : Cell) (n : Nat), (c, n) ∈ valueCounts xs → n = xs.count c)
      ∧ ((valueCounts xs).map Prod.snd).sum = (xs.filter (fun c => !cellIsNull c)).length
      ∧ ((∀ c ∈ xs, cellIsNull c = false) →
          ((valueCounts xs).map Prod.snd).sum = d.rows.length) := by
  intro d i cfg xs colors hct hagg hx hpal
  have hbl : isBarLine cfg.chart_type = true := by
    rcases hct with h | h <;> rw [h] <;> rfl
  refine ⟨?_, fun c n => mem_valueCounts, fun c n h => valueCounts_count h,
    valueCounts_sum xs, ?_⟩
  · rw [renderChart, hpal]
    simp only [hbl, if_true]
    rw [hagg]
    show barLineFreq d i cfg colors = _
    rw [barLineFreq, hx]
  · intro hnonull
    rw [valueCounts_sum xs, List.filter_eq_self.mpr (by simpa using hnonull)]
    exact getCol_length hx

def dCat : Dataset :=
  { cols := ["cat"], rows := [[Cell.str "A"], [Cell.str "A"], [Cell.str "B"]] }

theorem freq_fallback_spec_witness :
    renderChart dCat 0 cfgFreq =
      Except.ok (mkBarLine ChartType.Bar "cat"
        (freqFrame [Cell.str "A", Cell.str "A", Cell.str "B"]) "Plotly" 0)
    ∧ ((valueCounts [Cell.str "A", Cell.str "A", Cell.str "B"]).map Prod.snd).sum =
        dCat.rows.length := by
  have h := freq_fallback_spec dCat 0 cfgFreq
    [Cell.str "A", Cell.str "A", Cell.str "B"] "Plotly"
    (Or.inl rfl) rfl (by decide) (by decide)
  exact ⟨h.1, h.2.2.2.2 (by decide)⟩

/-- C5: `top_n` is read from the slider and stored but never consulted by
the renderer: two configurations that differ only in `top_n` produce the
same rendered chart, frame included. -/
theorem top_n_no_effect (d : Dataset) (i : Nat) (cfg : ChartConfig) (n : Nat) :
    renderChart d i { cfg with top_n := n } = renderChart d i cfg := by
  cases cfg
  rfl

/-- C8: for a Pie or Doughnut configuration the renderer always uses the
frequency count of the category column — the aggregation settings
(`use_agg`, `y`, `agg`) have no effect on the output — and the pie
primitive gets hole proportion 0.45 for Doughnut and 0 for Pie. -/
theorem pie_doughnut_spec :
    ∀ (d : Dataset) (i : Nat) (cfg : ChartConfig),
      (cfg.chart_type = ChartType.Pie ∨ cfg.chart_type = ChartType.Doughnut) →
      (∀ (b : Bool) (oy : Option String) (oa : Option Agg),
          renderChart d i { cfg with use_agg := b, y := oy, agg := oa } =
            renderChart d i cfg)
      ∧ (∀ (xs : List Cell) (colors : String),
          getCol d cfg.x = some xs →
          lookupPalette cfg.color_scheme = some colors →
          renderChart d i cfg = Except.ok
            { kind := FigKind.pie
              frame := freqFrame xs
              xcol := cfg.x
              hole := some (if cfg.chart_type = ChartType.Doughnut
                then (45 / 100 : ℚ) else 0)
              markers := false
              colorSeq := colors
              title := "Chart " ++ toString (i + 1)
              height := 500 }) := by
  intro d i cfg hct
  have hnbl : isBarLine cfg.chart_type = false := by
    rcases hct with h | h <;> rw [h] <;> rfl
  constructor
  · intro b oy oa
    cases cfg
    rcases hct with h | h <;> (dsimp only at h; subst h; rfl)
  · intro xs colors hx hpal
    rw [renderChart, hpal]
    simp only [hnbl, Bool.false_eq_true, if_false]
    rw [hx]

def cfgDough : ChartConfig :=
  { chart_type := ChartType.Doughnut, x := "make", y := none
    use_agg := false, agg := none, top_n := 15, color_scheme := "Set1" }

theorem pie_doughnut_spec_witness :
    renderChart dCar 0 cfgDough = Except.ok
      { kind := FigKind.pie
        frame := freqFrame exCat
        xcol := "make"
        hole := some (45 / 100 : ℚ)
        markers := false
        colorSeq := "Set1"
        title := "Chart 1"
        height := 500 } :=
  (pie_doughnut_spec dCar 0 cfgDough (Or.inr rfl)).2 exCat "Set1"
    (by decide) (by decide)

/-! ## Summary Reporter: category frequency table (app.py lines 210-237) -/

/-- pandas dtype split: a column is numeric when every cell is a number or
NaN; any text cell makes the whole column an object (categorical) column. -/
def isNumericCell : Cell → Bool
  | Cell.num _ => true
  | Cell.null => true
  | Cell.str _ => false

/-- A nonempty column of numbers and NaNs gets a numeric dtype; a column
containing a text cell, and also every column of a 0-row dataframe (pandas
infers object dtype for empty columns), is non-numeric. -/
def isNumericColumn (cells : List Cell) : Bool :=
  !cells.isEmpty && cells.all isNumericCell

/-- `df.select_dtypes(exclude="number").columns` (line 58). -/
def categoricalCols (d : Dataset) : List String :=
  d.cols.filter (fun c => !(isNumericColumn ((getCol d c).getD [])))

structure FreqRow where
  Column : String
  Category : String
  Count : Nat
deriving DecidableEq

/-- The rows appended for one categorical column:
`df[col].value_counts().head(5)` (lines 214-221). -/
def topRows (d : Dataset) (col : String) : List FreqRow :=
  ((valueCounts ((getCol d col).getD [])).take 5).map
    (fun p => { Column := col, Category := cellToString p.1, Count := p.2 })

/-- The order of `sort_values(by=["Column", "Count"], ascending=[True, False])`:
Column name ascending, then Count descending. -/
def freqRowLe (a b : FreqRow) : Prop :=
  strLt a.Column b.Column ∨ (a.Column = b.Column ∧ b.Count ≤ a.Count)

instance freqRowLe.decRel : DecidableRel freqRowLe := fun a b =>
  inferInstanceAs
    (Decidable (strLt a.Column b.Column ∨ (a.Column = b.Column ∧ b.Count ≤ a.Count)))

instance freqRowLe.total : IsTotal FreqRow freqRowLe := by
  constructor
  intro a b
  cases hx : strLtCore a.Column.data b.Column.data with
  | true => exact Or.inl (Or.inl hx)
  | false =>
    cases hy : strLtCore b.Column.data a.Column.data with
    | true => exact Or.inr (Or.inl hy)
    | false =>
      have he : a.Column = b.Column := string_ext (strLtCore_eq_of_false _ _ hx hy)
      rcases Nat.le_total a.Count b.Count with h | h
      · exact Or.inr (Or.inr ⟨he.symm, h⟩)
      · exact Or.inl (Or.inr ⟨he, h⟩)

theorem strLt_trans {a b c : String} (h1 : strLt a b) (h2 : strLt b c) :
    strLt a c := by
  cases hx : strLtCore a.data c.data with
  | true => exact hx
  | false =>
    have hcb : strLe c b := strLe_trans hx (strLt_asymm h1)
    rw [strLt] at h2
    rw [strLe, h2] at hcb
    cases hcb

instance freqRowLe.trans : IsTrans FreqRow freqRowLe := by
  constructor
  intro a b c hab hbc
  rcases hab with h1 | ⟨he1, hc1⟩
  · rcases hbc with h2 | ⟨he2, _⟩
    · exact Or.inl (strLt_trans h1 h2)
    · exact Or.inl (he2 ▸ h1)
  · rcases hbc with h2 | ⟨he2, hc2⟩
    · exact Or.inl (by rw [he1]; exact h2)
    · exact Or.inr ⟨he1.trans he2, le_trans hc2 hc1⟩

/-- The flat `freq_rows` list: per categorical column, one row per top-5
category value, concatenated in column order. -/
def freqRowsOf (d : Dataset) : List FreqRow :=
  (categoricalCols d).flatMap (topRows d)

/-- The displayed `freq_table` (lines 223-229): `pd.DataFrame(freq_rows)`
followed by `sort_values(by=["Column", "Count"], ascending=[True, False])`.
When `freq_rows` is empty — no categorical column contributed a row, as on
an all-numeric upload — the constructed dataframe has no columns at all
and `sort_values` raises an uncaught KeyError on "Column"; otherwise the
sort is the two-key lexicographic order. -/
def freqTable (d : Dataset) : Except String (List FreqRow) :=
  if (freqRowsOf d).isEmpty then Except.error "KeyError: Column"
  else Except.ok (List.insertionSort freqRowLe (freqRowsOf d))

/-- The dataset of the spec test vector: column X has value counts 5 and 3,
column Y has counts 4 and 2 plus two nulls; the columns are deliberately
stored in the order Y, X so that the Column sort is observable. -/
def dXY : Dataset :=
  { cols := ["Y", "X"]
    rows := [[Cell.str "c", Cell.str "a"], [Cell.str "c", Cell.str "a"],
             [Cell.str "c", Cell.str "a"], [Cell.str "c", Cell.str "a"],
             [Cell.str "d", Cell.str "a"], [Cell.str "d", Cell.str "b"],
             [Cell.null, Cell.str "b"], [Cell.null, Cell.str "b"]] }

/-- C9 counterexample: an ordinary all-numeric dataset has no categorical
columns, `freq_rows` stays empty, and the `sort_values` call raises an
uncaught KeyError on "Column": no frequency table is produced at all, so
the for-every-Dataset claim fails on this input. -/
def dNum : Dataset := { cols := ["n"], rows := [[Cell.num 1], [Cell.num 2]] }

theorem category_freq_table_numeric_cex :
    categoricalCols dNum = []
    ∧ freqRowsOf dNum = []
    ∧ freqTable dNum = Except.error "KeyError: Column" :=
  ⟨by decide, by decide, by rfl⟩

/-- C9 (amended): whenever at least one frequency row exists, the
category-frequency table is produced and contains one {Column, Category,
Count} row per top-5 value of each categorical column (a permutation of
the concatenated per-column rows), sorted ascending by Column name with
Count descending inside each column; on two columns X (counts 5,3) and
Y (counts 4,2) the output is the X rows descending followed by the Y rows
descending.  When no frequency row exists (no categorical column, or only
empty ones), the sort raises an uncaught KeyError instead of producing a
table. -/
theorem category_freq_table_spec :
    (∀ d : Dataset, freqRowsOf d = [] →
        freqTable d = Except.error "KeyError: Column")
    ∧ (∀ (d : Dataset) (t : List FreqRow), freqTable d = Except.ok t →
        List.Sorted
          (fun a b : FreqRow =>
            strLt a.Column b.Column ∨ (a.Column = b.Column ∧ b.Count ≤ a.Count))
          t
        ∧ t.Perm ((categoricalCols d).flatMap (topRows d)))
    ∧ freqTable dXY =
        Except.ok
          [{ Column := "X", Category := "a", Count := 5 },
           { Column := "X", Category := "b", Count := 3 },
           { Column := "Y", Category := "c", Count := 4 },
           { Column := "Y", Category := "d", Count := 2 }] := by
  refine ⟨?_, ?_, ?_⟩
  · intro d h
    have hE : (freqRowsOf d).isEmpty = true := by rw [h]; rfl
    rw [freqTable, if_pos hE]
  · intro d t ht
    rw [freqTable] at ht
    cases hE : (freqRowsOf d).isEmpty with
    | true => rw [if_pos hE] at ht; cases ht
    | false =>
      rw [if_neg (by rw [hE]; exact Bool.false_ne_true)] at ht
      cases ht
      exact ⟨List.sorted_insertionSort freqRowLe (freqRowsOf d),
             List.perm_insertionSort freqRowLe (freqRowsOf d)⟩
  · have hlist : List.insertionSort freqRowLe (freqRowsOf dXY) =
        [{ Column := "X", Category := "a", Count := 5 },
         { Column := "X", Category := "b", Count := 3 },
         { Column := "Y", Category := "c", Count := 4 },
         { Column := "Y", Category := "d", Count := 2 }] := by decide
    rw [freqTable, if_neg (by decide), hlist]

theorem category_freq_table_spec_witness :
    freqTable dNum = Except.error "KeyError: Column"
    ∧ (List.Sorted
        (fun a b : FreqRow =>
          strLt a.Column b.Column ∨ (a.Column = b.Column ∧ b.Count ≤ a.Count))
        [{ Column := "X", Category := "a", Count := 5 },
         { Column := "X", Category := "b", Count := 3 },
         { Column := "Y", Category := "c", Count := 4 },
         { Column := "Y", Category := "d", Count := 2 }]
      ∧ List.Perm
          [{ Column := "X", Category := "a", Count := 5 },
           { Column := "X", Category := "b", Count := 3 },
           { Column := "Y", Category := "c", Count := 4 },
           { Column := "Y", Category := "d", Count := 2 }]
          ((categoricalCols dXY).flatMap (topRows dXY))) :=
  ⟨category_freq_table_spec.1 dNum (by decide),
   category_freq_table_spec.2.1 dXY _ category_freq_table_spec.2.2⟩

/-! ## Query Matcher (app.py lines 241-260)

Python substring containment (`pat in q`) and `str.lower()` are embedded
directly on the character lists so that they evaluate inside the kernel. -/

/-- Does the pattern match at the head of the text? -/
def charsMatch : List Char → List Char → Bool
  | [], _ => true
  | _ :: _, [] => false
  | a :: as, b :: bs => a == b && charsMatch as bs

/-- Does the pattern occur anywhere in the text (Python `pat in s`)? -/
def occursIn (pat : List Char) : List Char → Bool
  | [] => charsMatch pat []
  | c :: rest => charsMatch pat (c :: rest) || occursIn pat rest

def strContains (s pat : String) : Bool := occursIn pat.data s.data

/-- Python `str.lower()` (ASCII-relevant part used by the queries). -/
def lowerString (s : String) : String := String.mk (s.data.map Char.toLower)

example : strContains (lowerString "Which MAKE has the HIGHEST price?") "highest" = true := by
  decide

/-- Condition of the first query branch (line 251):
`"highest" in q and "price" in q and "make" in df.columns`. -/
def hiPriceCond (d : Dataset) (q : String) : Bool :=
  strContains (lowerString q) "highest" && strContains (lowerString q) "price"
    && d.cols.contains "make"

/-- Condition of the second query branch (line 255):
`"most" in q and "cars" in q and "make" in df.columns`. -/
def mostCarsCond (d : Dataset) (q : String) : Bool :=
  strContains (lowerString q) "most" && strContains (lowerString q) "cars"
    && d.cols.contains "make"

inductive QueryResult where
  | success (msg : String)
  | info (msg : String)
  | failure (msg : String)
deriving DecidableEq

def queryFallback : String := "This query needs AI-based understanding (can be added later)."

/-- Descending order on the mean values, nulls (NaN) last, as
`sort_values(ascending=False)` arranges them. -/
def optDescLe : Option ℚ → Option ℚ → Prop
  | some a, some b => b ≤ a
  | some _, none => True
  | none, some _ => False
  | none, none => True

instance optDescLe.decRel : DecidableRel optDescLe := fun a b =>
  match a, b with
  | some a, some b => inferInstanceAs (Decidable (b ≤ a))
  | some _, none => isTrue trivial
  | none, some _ => isFalse (fun h => h)
  | none, none => isTrue trivial

def meanDescLe (p q : Cell × Option ℚ) : Prop := optDescLe p.2 q.2

instance meanDescLe.decRel : DecidableRel meanDescLe := fun p q =>
  optDescLe.decRel p.2 q.2

instance meanDescLe.total : IsTotal (Cell × Option ℚ) meanDescLe := by
  constructor
  intro p q
  rcases p with ⟨_, a⟩
  rcases q with ⟨_, b⟩
  cases a <;> cases b <;> simp only [meanDescLe, optDescLe] <;>
    first
    | exact Or.inl trivial
    | exact Or.inr trivial
    | exact (le_total _ _).imp id id

instance meanDescLe.trans : IsTrans (Cell × Option ℚ) meanDescLe := by
  constructor
  intro p q r hpq hqr
  rcases p with ⟨_, a⟩
  rcases q with ⟨_, b⟩
  rcases r with ⟨_, c⟩
  cases a <;> cases b <;> cases c <;>
    simp only [meanDescLe, optDescLe] at * <;>
    first
    | trivial
    | exact le_trans hqr hpq

instance meanDescLe.refl : IsRefl (Cell × Option ℚ) meanDescLe := by
  constructor
  intro p
  rcases p with ⟨_, a⟩
  cases a <;> simp only [meanDescLe, optDescLe, le_refl]

instance countDesc.refl : IsRefl (Cell × Nat) countDesc :=
  ⟨fun p => Nat.le_refl p.2⟩

/-- Branch 1 (lines 252-253):
`df.groupby("make")["price"].mean().sort_values(ascending=False).head(1)`,
then `ans.index[0]`; a missing column raises `KeyError` and an empty result
raises `IndexError`. -/
def hiPriceAnswer (d : Dataset) : QueryResult :=
  match getCol d "make" with
  | none => QueryResult.failure "KeyError: make"
  | some ms =>
    match getCol d "price" with
    | none => QueryResult.failure "KeyError: price"
    | some ps =>
      match (List.insertionSort meanDescLe (groupbyAgg Agg.Mean ms ps)).head? with
      | none => QueryResult.failure "IndexError"
      | some p =>
          QueryResult.success
            ("🏆 Best brand by average price: **" ++ cellToString p.1 ++ "**")

/-- Branch 2 (lines 256-257): `df["make"].value_counts().head(1)`, then
`ans.index[0]`. -/
def mostCarsAnswer (d : Dataset) : QueryResult :=
  match getCol d "make" with
  | none => QueryResult.failure "KeyError: make"
  | some ms =>
    match (valueCounts ms).head? with
    | none => QueryResult.failure "IndexError"
    | some p =>
        QueryResult.success ("🚗 Brand with most cars: **" ++ cellToString p.1 ++ "**")

/-- The whole query section (lines 248-260). -/
def answerQuery (d : Dataset) (q : String) : QueryResult :=
  if hiPriceCond d q then hiPriceAnswer d
  else if mostCarsCond d q then mostCarsAnswer d
  else QueryResult.info queryFallback

/-- The head of a sorted list is related to every input element. -/
theorem insertionSort_head_rel {α : Type} (r : α → α → Prop) [DecidableRel r]
    [IsTotal α r] [IsTrans α r] [IsRefl α r] (l : List α) (a : α)
    (h : (List.insertionSort r l).head? = some a) : ∀ b ∈ l, r a b := by
  have hs := List.sorted_insertionSort r l
  cases hl : List.insertionSort r l with
  | nil => rw [hl] at h; cases h
  | cons x t =>
    rw [hl] at h hs
    intro b hb
    have hb2 : b ∈ x :: t := by
      rw [← hl]
      exact (List.mem_insertionSort r).mpr hb
    cases h
    rcases List.mem_cons.mp hb2 with rfl | hbt
    · exact IsRefl.refl b
    · exact List.rel_of_sorted_cons hs b hbt

/-- C6: the Query Matcher lower-cases the query and dispatches in three
mutually exclusive cases: if it contains "highest" and "price" and a "make"
column exists it reports the make with the highest mean of the "price"
column; else if it contains "most" and "cars" and a "make" column exists it
reports the most frequent value of "make"; otherwise it returns the
informational fallback message (an `info` result, not an error). -/
theorem query_dispatch_spec :
    (∀ (d : Dataset) (q : String),
        hiPriceCond d q = true → answerQuery d q = hiPriceAnswer d)
    ∧ (∀ (d : Dataset) (q : String),
        hiPriceCond d q = false → mostCarsCond d q = true →
          answerQuery d q = mostCarsAnswer d)
    ∧ (∀ (d : Dataset) (q : String),
        hiPriceCond d q = false → mostCarsCond d q = false →
          answerQuery d q = QueryResult.info queryFallback)
    ∧ (∀ (d : Dataset) (ms ps : List Cell) (p : Cell × Option ℚ),
        getCol d "make" = some ms → getCol d "price" = some ps →
        (List.insertionSort meanDescLe (groupbyAgg Agg.Mean ms ps)).head? = some p →
          hiPriceAnswer d =
            QueryResult.success
              ("🏆 Best brand by average price: **" ++ cellToString p.1 ++ "**")
          ∧ ∀ r ∈ groupbyAgg Agg.Mean ms ps, optDescLe p.2 r.2)
    ∧ (∀ (d : Dataset) (ms : List Cell) (p : Cell × Nat),
        getCol d "make" = some ms →
        (valueCounts ms).head? = some p →
          mostCarsAnswer d =
            QueryResult.success
              ("🚗 Brand with most cars: **" ++ cellToString p.1 ++ "**")
          ∧ ∀ r ∈ valueCounts ms, r.2 ≤ p.2) := by
  refine ⟨?_, ?_, ?_, ?_, ?_⟩
  · intro d q h
    simp [answerQuery, h]
  · intro d q h1 h2
    simp [answerQuery, h1, h2]
  · intro d q h1 h2
    simp [answerQuery, h1, h2]
  · intro d ms ps p hm hp hhead
    constructor
    · simp only [hiPriceAnswer, hm, hp, hhead]
    · intro r hr
      exact insertionSort_head_rel meanDescLe (groupbyAgg Agg.Mean ms ps) p hhead r hr
  · intro d ms p hm hhead
    have hhead2 : (List.insertionSort countDesc
        ((ms.filter (fun c => !cellIsNull c)).dedup.map
          (fun v => (v, (ms.filter (fun c => !cellIsNull c)).count v)))).head? = some p := by
      rw [valueCounts] at hhead
      exact hhead
    constructor
    · simp only [mostCarsAnswer, hm, hhead]
    · intro r hr
      have hmem : r ∈ (ms.filter (fun c => !cellIsNull c)).dedup.map
          (fun v => (v, (ms.filter (fun c => !cellIsNull c)).count v)) := by
        rw [valueCounts] at hr
        exact (List.mem_insertionSort countDesc).mp hr
      exact insertionSort_head_rel countDesc _ p hhead2 r hmem

theorem query_dispatch_spec_witness :
    answerQuery dCar "Which make has the highest average price?" = hiPriceAnswer dCar
    ∧ answerQuery dCar "most cars" = mostCarsAnswer dCar
    ∧ answerQuery dCar "what is the weather" = QueryResult.info queryFallback :=
  ⟨query_dispatch_spec.1 dCar _ (by decide),
   query_dispatch_spec.2.1 dCar _ (by decide) (by decide),
   query_dispatch_spec.2.2.1 dCar _ (by decide) (by decide)⟩

/-- C7 counterexample: the two branch conditions are not mutually
exclusive: a query containing "most", "cars", "highest" and "price" over a
dataset with a "make" column satisfies both conditions at once. -/
theorem query_conditions_overlap_cex :
    hiPriceCond dCar "which make has most cars and the highest price" = true
    ∧ mostCarsCond dCar "which make has most cars and the highest price" = true :=
  ⟨by decide, by decide⟩

/-- C7 (amended): the two branch conditions can hold simultaneously (a
query containing all four keywords satisfies both), so they are not
mutually exclusive by construction; instead the if/elif order resolves the
overlap by giving the highest/price branch priority, and branch order
therefore affects the result. -/
theorem query_branch_priority :
    ∀ (d : Dataset) (q : String),
      hiPriceCond d q = true → mostCarsCond d q = true →
        answerQuery d q = hiPriceAnswer d := by
  intro d q h1 _
  simp [answerQuery, h1]

/-- A dataset on which the two query branches disagree: the most frequent
make is A but the highest average price belongs to B. -/
def dPrio : Dataset :=
  { cols := ["make", "price"]
    rows := [[Cell.str "A", Cell.num 1], [Cell.str "A", Cell.num 1],
             [Cell.str "B", Cell.num 5]] }

theorem query_branch_priority_witness :
    answerQuery dPrio "which make has most cars and the highest price" =
      hiPriceAnswer dPrio
    ∧ hiPriceAnswer dPrio ≠ mostCarsAnswer dPrio :=
  ⟨query_branch_priority dPrio _ (by decide) (by decide),
   of_decide_eq_true (by with_unfolding_all rfl)⟩

def dMakeOnly : Dataset := { cols := ["make"], rows := [[Cell.str "Toyota"]] }

/-- C10: the first query branch guards only on the keywords and the
existence of a "make" column, not of a "price" column; on a dataset with
"make" but no "price", a query containing "highest" and "price" enters the
branch and the group-by mean hits the missing "price" column, producing an
uncaught KeyError instead of the fallback message. -/
theorem missing_price_column_key_error :
    "make" ∈ dMakeOnly.cols
    ∧ "price" ∉ dMakeOnly.cols
    ∧ hiPriceCond dMakeOnly "what is the highest price" = true
    ∧ answerQuery dMakeOnly "what is the highest price" =
        QueryResult.failure "KeyError: price"
    ∧ answerQuery dMakeOnly "what is the highest price" ≠
        QueryResult.info queryFallback :=
  ⟨by decide, by decide, by decide, by decide, by decide⟩

end DIV
